import Mathlib

/-!
Verification development for the install orchestrator (`src/cli/commands/install.js`).

The definitions below are a shallow embedding of the JavaScript source.  External
collaborators (resolver, fetcher, integrity checker, lockfile codec, reporter,
filesystem) are modelled as abstract function-valued fields of environment
structures; the orchestrator's own control flow is translated function by
function.  Side effects that matter to the specification (lockfile writes,
integrity writes, root-manifest saves, pipeline steps, lifecycle scripts,
prompts) are recorded in an explicit event trace.
-/

namespace Install

/-- Event trace entry: an observable effect performed by the orchestrator.
Write-effects on the working directory are `lockfileWrite`, `integrityWrite`
(integrity file save), `rootManifestWrite` (Config.saveRootManifests),
`emptyManifestFolders` (mkdirp), `integrityRemove` and `mirrorPrune`.
Pipeline steps and lifecycle scripts are recorded so that "no fetch / link /
script ran" is expressible. -/
inductive Event where
  | resolveStep
  | fetchStep
  | compatStep
  | linkStep
  | integrityRemove
  | scriptsStep
  | scriptsSkipped
  | harSave
  | cleanStep
  | mirrorPrune
  | integrityWrite
  | lockfileWrite
  | rootManifestWrite
  | emptyManifestFolders
  | prompt (name : String)
  | collapse (name : String) (version : String)
  | lockfileLoadEmpty
  | lockfileLoadFromDir
  | installConstructed
  | lifecycle (phase : String)
deriving DecidableEq, Repr

/-- Model of `MessageError` from `errors.js`: the error carries the reporter
language key and its arguments, mirroring `new MessageError(reporter.lang(key, ...args))`. -/
inductive MessageError where
  | lang (key : String) (args : List String)
deriving DecidableEq, Repr

/-- Raw invocation flags as received by `normalizeFlags` (`install.js` lines
110-133).  Each raw field is the truthiness of the corresponding property of the
raw flag object; `lockfile` keeps the raw tri-state because the source tests
`rawFlags.lockfile !== false`. -/
structure RawFlags where
  har : Bool
  ignorePlatform : Bool
  ignoreEngines : Bool
  ignoreScripts : Bool
  ignoreOptional : Bool
  force : Bool
  flat : Bool
  lockfile : Option Bool
  pureLockfile : Bool
  skipIntegrityCheck : Bool
  frozenLockfile : Bool
  linkDuplicates : Bool
  checkFiles : Bool
  peer : Bool
  dev : Bool
  optional : Bool
  exact : Bool
  tilde : Bool
deriving DecidableEq, Repr

/-- Effective flags produced by `normalizeFlags`. -/
structure Flags where
  har : Bool
  ignorePlatform : Bool
  ignoreEngines : Bool
  ignoreScripts : Bool
  ignoreOptional : Bool
  force : Bool
  flat : Bool
  lockfile : Bool
  pureLockfile : Bool
  skipIntegrityCheck : Bool
  frozenLockfile : Bool
  linkDuplicates : Bool
  checkFiles : Bool
  peer : Bool
  dev : Bool
  optional : Bool
  exact : Bool
  tilde : Bool
deriving DecidableEq, Repr

/-- Truthiness of the config options `normalizeFlags` consults through
`config.getOption`, together with `config.production` (used later by the
request collector). -/
structure ConfigModel where
  ignoreScriptsOpt : Bool
  ignorePlatformOpt : Bool
  ignoreEnginesOpt : Bool
  ignoreOptionalOpt : Bool
  forceOpt : Bool
  production : Bool
deriving DecidableEq, Repr

/-- Embedding of `normalizeFlags(config, rawFlags)` (`install.js` lines 110-156):
build the record by coercing every raw flag to a boolean (`lockfile` is
`rawFlags.lockfile !== false`), then apply the five config overrides in source
order. -/
def normalizeFlags (config : ConfigModel) (raw : RawFlags) : Flags :=
  let flags : Flags :=
    { har := raw.har
      ignorePlatform := raw.ignorePlatform
      ignoreEngines := raw.ignoreEngines
      ignoreScripts := raw.ignoreScripts
      ignoreOptional := raw.ignoreOptional
      force := raw.force
      flat := raw.flat
      lockfile := raw.lockfile != some false
      pureLockfile := raw.pureLockfile
      skipIntegrityCheck := raw.skipIntegrityCheck
      frozenLockfile := raw.frozenLockfile
      linkDuplicates := raw.linkDuplicates
      checkFiles := raw.checkFiles
      peer := raw.peer
      dev := raw.dev
      optional := raw.optional
      exact := raw.exact
      tilde := raw.tilde }
  let flags := if config.ignoreScriptsOpt then { flags with ignoreScripts := true } else flags
  let flags := if config.ignorePlatformOpt then { flags with ignorePlatform := true } else flags
  let flags := if config.ignoreEnginesOpt then { flags with ignoreEngines := true } else flags
  let flags := if config.ignoreOptionalOpt then { flags with ignoreOptional := true } else flags
  let flags := if config.forceOpt then { flags with force := true } else flags
  flags

/-- Model of `String.prototype.split('#')[0]` as used by `pruneOfflineMirror`:
the characters before the first `#`. -/
def takeUntilHash : List Char → List Char
  | [] => []
  | c :: cs => if c = '#' then [] else c :: takeUntilHash cs

/-- The `resolved.split('#')[0]` operation on strings. -/
def stripHash (s : String) : String :=
  ⟨takeUntilHash s.data⟩

/-- Helper for `basenameModel`: the characters after the last `/`. -/
def basenameAux : List Char → List Char → List Char
  | cur, [] => cur
  | cur, c :: cs => if c = '/' then basenameAux [] cs else basenameAux (cur ++ [c]) cs

/-- Model of node's `path.basename` on the hash-stripped tarball URLs the
persister feeds it: the component after the last `/` (tarball URLs carry no
trailing separator). -/
def basenameModel (s : String) : String :=
  ⟨basenameAux [] s.data⟩

/-- A lockfile entry's fields consumed by the orchestrator: only `resolved`
(a possibly absent URL) matters to the persister. -/
structure LockedEntry where
  resolved : Option String
deriving DecidableEq, Repr

/-- A file found by `fs.walk(mirror)`: the walker yields records with
`basename` and `absolute` fields. -/
structure MirrorFile where
  basename : String
  absolute : String
deriving DecidableEq, Repr

/-- Set of required tarball basenames computed by `pruneOfflineMirror`
(`install.js` lines 576-582): for each locked entry with a truthy `resolved`,
`path.basename(resolved.split('#')[0])`.  The JS `Set` is modelled as a list
consulted only through membership. -/
def requiredTarballs (lockfile : List (String × LockedEntry)) : List String :=
  lockfile.filterMap (fun kv => kv.2.resolved.map (fun r => basenameModel (stripHash r)))

/-- Embedding of `Install.pruneOfflineMirror(lockfile)` (`install.js` lines
570-590) as a function on the mirror directory listing: when a mirror path is
configured, every walked file whose basename is not required is unlinked; the
returned list is what remains on disk.  When no mirror is configured the
function returns immediately. -/
def pruneOfflineMirror (mirrorConfigured : Bool) (lockfile : List (String × LockedEntry))
    (mirrorFiles : List MirrorFile) : List MirrorFile :=
  if mirrorConfigured then
    mirrorFiles.filter (fun f => (requiredTarballs lockfile).contains f.basename)
  else
    mirrorFiles

/-- One entry of a manifest dependency map (`json[depType]`): a package name
and its declared range.  A JS object is modelled as a list of entries. -/
structure DepEntry where
  name : String
  range : String
deriving DecidableEq, Repr

/-- The parts of a parsed, normalized root manifest that
`fetchRequestFromCwd` consumes. -/
structure ManifestJson where
  dependencies : List DepEntry
  devDependencies : List DepEntry
  optionalDependencies : List DepEntry
  resolutions : List (String × String)
  flat : Bool
deriving DecidableEq, Repr

/-- A recognized registry: its enumeration name and its root manifest
filename (`registries[registry].filename`). -/
structure Registry where
  name : String
  filename : String
deriving DecidableEq, Repr

/-- A dependency request as pushed onto `deps`:
`{pattern, registry, hint, optional}`. -/
structure DepRequest where
  pattern : String
  registry : String
  hint : Option String
  optional : Bool
deriving DecidableEq, Repr

/-- Environment of `fetchRequestFromCwd`: the registry enumeration, the
filesystem (`fs.exists` + `config.readJson` + `normalizeManifest` fused into a
filename lookup), the exotic-resolver test and pattern normalizer from
`PackageRequest`, the lockfile's `getLocked(pattern, true)` truthiness,
`config.production`, and the `Install` state read by the collector
(`flags.ignoreOptional`, `flags.flat`, `this.resolutions`). -/
structure CollectEnv where
  registries : List Registry
  readManifest : String → Option ManifestJson
  isExotic : String → Bool
  normalizeName : String → String
  getLockedIV : String → Bool
  production : Bool
  flagsIgnoreOptional : Bool
  flagsFlat : Bool
  resolutions : List (String × String)

/-- Result record of `fetchRequestFromCwd`, extended with the `Install` state
the source mutates in place (`this.resolutions`, `this.rootManifestRegistries`,
`this.rootPatternsToOrigin`, `this.flags.flat`). -/
structure CwdRequest where
  requests : List DepRequest
  patterns : List String
  usedPatterns : List String
  ignorePatterns : List String
  manifest : Option ManifestJson
  resolutions : List (String × String)
  rootManifestRegistries : List String
  rootPatternsToOrigin : List (String × String)
  flatOut : Bool
deriving Repr

/-- The `excludeNames` loop (`install.js` lines 212-222): drop exotic
patterns, keep the normalized name of the rest. -/
def excludeNamesOf (env : CollectEnv) (excludePatterns : List String) : List String :=
  (excludePatterns.filter (fun p => !env.isExotic p)).map env.normalizeName

/-- Pattern construction inside `pushDeps` (`install.js` lines 248-253):
start from the bare name and append `@range` unless
`lockfile.getLocked(pattern, true)` is truthy. -/
def mkPattern (env : CollectEnv) (name range : String) : String :=
  if env.getLockedIV name then name else name ++ "@" ++ range

/-- Output of one `pushDeps` call: the contributions to `deps`, `patterns`,
`usedPatterns`/`ignorePatterns` and `rootPatternsToOrigin`. -/
structure CatOut where
  requests : List DepRequest
  patterns : List String
  used : List String
  ignore : List String
  origins : List (String × String)
deriving Repr

/-- Embedding of the `pushDeps` closure (`install.js` lines 238-265) for one
dependency category: return early when `ignoreUnusedPatterns && !isUsed`;
otherwise skip excluded names and emit, for every remaining entry, the
pattern (to `patterns` and to `usedPatterns` or `ignorePatterns` according to
`isUsed`), the origin record, and the request. -/
def pushDeps (env : CollectEnv) (excludeNames : List String) (registryName : String)
    (depType : String) (entries : List DepEntry) (hint : Option String)
    (optionalFlag : Bool) (isUsed : Bool) (ignoreUnused : Bool) : CatOut :=
  if ignoreUnused && !isUsed then
    ⟨[], [], [], [], []⟩
  else
    let kept := entries.filter (fun e => !excludeNames.contains e.name)
    let pats := kept.map (fun e => mkPattern env e.name e.range)
    { requests := kept.map (fun e => ⟨mkPattern env e.name e.range, registryName, hint, optionalFlag⟩)
      patterns := pats
      used := if isUsed then pats else []
      ignore := if isUsed then [] else pats
      origins := pats.map (fun p => (p, depType)) }

/-- Body of the registry loop for the registry whose manifest was found
(`install.js` lines 231-271): record the registry, merge `resolutions` and the
manifest, then run `pushDeps` on the three dependency categories with their
source classifications (`dependencies` always used, `devDependencies` used
unless production, `optionalDependencies` used unless `ignoreOptional`).
`Object.assign(this.resolutions, json.resolutions)` is modelled by appending
the manifest entries, which shadow earlier ones on (later-biased) lookup.
The trailing `if (manifest.flat) this.flags.flat = true` from line 275 is
folded into `flatOut`. -/
def processRegistry (env : CollectEnv) (excludeNames : List String) (ignoreUnused : Bool)
    (r : Registry) (j : ManifestJson) : CwdRequest :=
  let c1 := pushDeps env excludeNames r.name "dependencies" j.dependencies none false true ignoreUnused
  let c2 := pushDeps env excludeNames r.name "devDependencies" j.devDependencies (some "dev") false (!env.production) ignoreUnused
  let c3 := pushDeps env excludeNames r.name "optionalDependencies" j.optionalDependencies (some "optional") true (!env.flagsIgnoreOptional) ignoreUnused
  { requests := c1.requests ++ c2.requests ++ c3.requests
    patterns := c1.patterns ++ c2.patterns ++ c3.patterns
    usedPatterns := c1.used ++ c2.used ++ c3.used
    ignorePatterns := c1.ignore ++ c2.ignore ++ c3.ignore
    manifest := some j
    resolutions := env.resolutions ++ j.resolutions
    rootManifestRegistries := [r.name]
    rootPatternsToOrigin := c1.origins ++ c2.origins ++ c3.origins
    flatOut := env.flagsFlat || j.flat }

/-- Result of `fetchRequestFromCwd` when no registry manifest exists in `cwd`:
everything empty, `manifest = {}` (whose `flat` is falsy), state unchanged. -/
def emptyCwdRequest (env : CollectEnv) : CwdRequest :=
  { requests := []
    patterns := []
    usedPatterns := []
    ignorePatterns := []
    manifest := none
    resolutions := env.resolutions
    rootManifestRegistries := []
    rootPatternsToOrigin := []
    flatOut := env.flagsFlat }

/-- The registry loop of `fetchRequestFromCwd` (`install.js` lines 224-272):
`continue` on a missing manifest file is the recursive call; the unconditional
`break` after processing the found registry is the absence of recursion. -/
def collectLoop (env : CollectEnv) (excludeNames : List String) (ignoreUnused : Bool) :
    List Registry → CwdRequest
  | [] => emptyCwdRequest env
  | r :: rest =>
    match env.readManifest r.filename with
    | none => collectLoop env excludeNames ignoreUnused rest
    | some j => processRegistry env excludeNames ignoreUnused r j

/-- Embedding of `Install.fetchRequestFromCwd(excludePatterns, ignoreUnusedPatterns)`
(`install.js` lines 200-286). -/
def fetchRequestFromCwd (env : CollectEnv) (excludePatterns : List String)
    (ignoreUnused : Bool) : CwdRequest :=
  collectLoop env (excludeNamesOf env excludePatterns) ignoreUnused env.registries

/-- The resolver-side view of one resolved manifest that `flatten` and
`markIgnored` read: `version` plus the `_reference` record's `ignore` flag,
`patterns`, `registry` and `requests.length`. -/
structure PkgInfo where
  version : String
  refIgnore : Bool
  refPatterns : List String
  refRegistry : String
  refRequests : Nat
deriving DecidableEq, Repr

/-- Abstract `PackageResolver` as consumed by the orchestrator:
`getAllDependencyNamesByLevelOrder`, `getAllInfoForPackageName`,
`patternsByPackage` (a JS object lookup, hence `Option`),
`getResolvedPattern`, `getStrictResolvedPattern` (total after the source's
`invariant`), and the pattern returned by `collapseAllVersionsOfPackage`. -/
structure ResolverModel where
  levelOrderNames : List String → List String
  infoFor : String → List PkgInfo
  patternsByPackage : String → Option (List String)
  getResolvedPattern : String → Option PkgInfo
  strictResolved : String → PkgInfo
  collapseResult : String → String → String

/-- Later-biased lookup in the assoc-list model of a JS object
(`this.resolutions[name]`): later assignments shadow earlier ones. -/
def lookupKey (m : List (String × String)) (name : String) : Option String :=
  (m.reverse.find? (fun kv => kv.1 = name)).map (fun kv => kv.2)

/-- Assignment `m[name] = v` in the assoc-list model: append, so that
`lookupKey` sees the new binding. -/
def setKey (m : List (String × String)) (name v : String) : List (String × String) :=
  m ++ [(name, v)]

/-- State threaded through the flatten loop: the `flattenedPatterns`
accumulator, `this.resolutions`, and the event trace. -/
structure FlattenState where
  flattenedPatterns : List String
  resolutions : List (String × String)
  events : List Event
deriving Repr

/-- Result of `flatten`: the returned pattern list, the final
`this.resolutions`, and the events performed (prompts, collapses, and the
root-manifest save). -/
structure FlattenResult where
  flattenedPatterns : List String
  resolutions : List (String × String)
  events : List Event
deriving Repr

/-- Body of the flatten loop for one package name (`install.js` lines
484-529).  Filter out ignored infos; zero infos skips the name; a single info
pushes `patternsByPackage[name][0]` (the source indexes `[0]` directly, the
model defaults the absent-object case); several infos pick the preset
resolution when it is among the candidate versions and otherwise prompt the
reporter (recording the answer in `resolutions`), then collapse all versions
of the package to the chosen one. -/
def flattenStep (rm : ResolverModel) (chooser : String → List (String × String) → String)
    (st : FlattenState) (name : String) : FlattenState :=
  let infos := (rm.infoFor name).filter (fun i => !i.refIgnore)
  if infos.length = 0 then
    st
  else if infos.length = 1 then
    { st with flattenedPatterns :=
        st.flattenedPatterns ++ [((rm.patternsByPackage name).getD []).headD ""] }
  else
    let options := infos.map (fun i => (String.intercalate ", " i.refPatterns, i.version))
    let versions := infos.map (fun i => i.version)
    match lookupKey st.resolutions name with
    | some rv =>
      if versions.contains rv then
        { st with
            flattenedPatterns := st.flattenedPatterns ++ [rm.collapseResult name rv]
            events := st.events ++ [Event.collapse name rv] }
      else
        let v := chooser name options
        { flattenedPatterns := st.flattenedPatterns ++ [rm.collapseResult name v]
          resolutions := setKey st.resolutions name v
          events := st.events ++ [Event.prompt name, Event.collapse name v] }
    | none =>
      let v := chooser name options
      { flattenedPatterns := st.flattenedPatterns ++ [rm.collapseResult name v]
        resolutions := setKey st.resolutions name v
        events := st.events ++ [Event.prompt name, Event.collapse name v] }

/-- Embedding of `Install.flatten(patterns)` (`install.js` lines 477-564).
When `flags.flat` is unset the input is returned untouched with no effects.
Otherwise the per-name loop runs over the level-ordered dependency names and,
when any resolutions are present afterwards, the source loads the root
manifests, merges the resolutions into them (a per-name in-memory mutation
that skips names without resolver patterns, elided here because it only
affects the written content) and calls `config.saveRootManifests`, recorded
as `rootManifestWrite`. -/
def flatten (flagsFlat : Bool) (rm : ResolverModel)
    (chooser : String → List (String × String) → String)
    (resolutions0 : List (String × String)) (patterns : List String) : FlattenResult :=
  if !flagsFlat then
    ⟨patterns, resolutions0, []⟩
  else
    let st := (rm.levelOrderNames patterns).foldl (flattenStep rm chooser)
      ⟨[], resolutions0, []⟩
    if st.resolutions.length = 0 then
      ⟨st.flattenedPatterns, st.resolutions, st.events⟩
    else
      ⟨st.flattenedPatterns, st.resolutions, st.events ++ [Event.rootManifestWrite]⟩

/-- Embedding of `Install.markIgnored(patterns)` (`install.js` lines 354-367):
the reference of each pattern's strictly-resolved manifest gains `ignore :=
true` exactly when it has a single requester; the function returns the
patterns so marked (the mutation is in resolver memory, not on disk). -/
def markIgnoredModel (rm : ResolverModel) (patterns : List String) : List String :=
  patterns.filter (fun p => (rm.strictResolved p).refRequests = 1)

/-- Result record of `integrityChecker.check(patterns, lockfileCache, flags)`. -/
structure IntegrityMatch where
  integrityMatches : Bool
  integrityFileMissing : Bool
  missingPatterns : List String
deriving DecidableEq, Repr

/-- Full environment of one `Install` instance: the effective flags together
with the abstract collaborators (filesystem, lockfile, resolver, reporter
select, integrity checker) and the bits of `config` the orchestrator reads.
`candidate` stands for `this.lockfile.getLockfile(this.resolver.patterns)`,
the lockfile image computed from the resolver after resolution. -/
structure InstallEnv where
  flags : Flags
  production : Bool
  registries : List Registry
  readManifest : String → Option ManifestJson
  isExotic : String → Bool
  normalizeName : String → String
  getLockedIV : String → Bool
  getLocked : String → Option LockedEntry
  lockfileCache : Bool
  initialResolutions : List (String × String)
  rm : ResolverModel
  chooser : String → List (String × String) → String
  integrityCheck : List String → IntegrityMatch
  haveLockfileFile : Bool
  candidate : List (String × LockedEntry)
  pruneMirrorOpt : Bool
  shouldClean : Bool

/-- The `CollectEnv` view of an `InstallEnv`, as `fetchRequestFromCwd` reads
`this`. -/
def collectEnvOf (env : InstallEnv) : CollectEnv :=
  { registries := env.registries
    readManifest := env.readManifest
    isExotic := env.isExotic
    normalizeName := env.normalizeName
    getLockedIV := env.getLockedIV
    production := env.production
    flagsIgnoreOptional := env.flags.ignoreOptional
    flagsFlat := env.flags.flat
    resolutions := env.initialResolutions }

/-- Embedding of `Install.saveLockfileAndIntegrity(patterns)` (`install.js`
lines 596-632) as the event trace it performs.  Early return when lockfile
writes are disabled; otherwise an optional mirror prune, the unconditional
integrity save, and then the lockfile write unless `lockFileHasAllPatterns`,
`resolverPatternsAreSameAsInLockfile`, `patterns.length` and `!force` all
hold.  The source filters over `Object.keys(lockfileBasedOnResolver)` and
looks each key back up; with object keys unique this is the entry filter
written here. -/
def saveLockfileAndIntegrityEvents (env : InstallEnv) (patterns : List String) : List Event :=
  if env.flags.lockfile = false || env.flags.pureLockfile then
    []
  else
    let pruneEvs := if env.pruneMirrorOpt then [Event.mirrorPrune] else []
    let base := pruneEvs ++ [Event.integrityWrite]
    let lockFileHasAllPatterns :=
      (patterns.filter (fun p => (env.getLocked p).isNone)).length = 0
    let resolverPatternsAreSameAsInLockfile :=
      (env.candidate.filter (fun kv =>
        match env.getLocked kv.1 with
        | none => true
        | some m => m.resolved ≠ kv.2.resolved)).length = 0
    if lockFileHasAllPatterns && resolverPatternsAreSameAsInLockfile
        && patterns.length != 0 && !env.flags.force then
      base
    else
      base ++ [Event.lockfileWrite]

/-- Embedding of `Install.bailout(patterns)` (`install.js` lines 302-332):
`false` under `skipIntegrityCheck`/`force`; `false` when no lockfile cache was
loaded; otherwise run the integrity check and throw the frozen-lockfile
`MessageError` when `frozenLockfile` and patterns are missing; report
up-to-date when the integrity matches and a lockfile file exists; with no
patterns and a present integrity file, create the empty manifest folders and
save lockfile and integrity; else `false`.  The returned events are those of
the successful-bailout branches. -/
def bailoutModel (env : InstallEnv) (patterns : List String) :
    Except MessageError (Bool × List Event) :=
  if env.flags.skipIntegrityCheck || env.flags.force then
    .ok (false, [])
  else if !env.lockfileCache then
    .ok (false, [])
  else
    let m := env.integrityCheck patterns
    if env.flags.frozenLockfile && m.missingPatterns.length != 0 then
      .error (MessageError.lang "frozenLockfileError" [])
    else if m.integrityMatches && env.haveLockfileFile then
      .ok (true, [])
    else if patterns.length = 0 && !m.integrityFileMissing then
      .ok (true, Event.emptyManifestFolders :: saveLockfileAndIntegrityEvents env patterns)
    else
      .ok (false, [])

/-- Observable outcome of `Install.init`: the event trace, the error (if the
pipeline threw), and the returned `flattenedTopLevelPatterns` on success. -/
structure InitResult where
  events : List Event
  err : Option MessageError
  returnValue : Option (List String)
deriving Repr

/-- Embedding of `Install.init` (`install.js` lines 373-463): collect the cwd
request, then run the pipeline steps in order.  Step 1 resolves, flattens
(`topLevelPatterns = preparePatterns(rawPatterns)` with `preparePatterns` the
identity) and consults `bailout(usedPatterns)`; a thrown frozen-lockfile error
aborts with only step 1's events; a `true` bailout returns early; otherwise
step 2 marks ignored patterns and fetches + checks compatibility, step 3
removes the integrity file then links, step 4 runs (or skips) scripts, the
optional HAR and clean steps follow, and finally
`saveLockfileAndIntegrity(topLevelPatterns)` runs. -/
def initModel (env : InstallEnv) : InitResult :=
  let req := fetchRequestFromCwd (collectEnvOf env) [] false
  let fr := flatten req.flatOut env.rm env.chooser req.resolutions req.patterns
  let ev1 := Event.resolveStep :: fr.events
  match bailoutModel env req.usedPatterns with
  | .error e => ⟨ev1, some e, none⟩
  | .ok (true, bev) => ⟨ev1 ++ bev, none, some fr.flattenedPatterns⟩
  | .ok (false, bev) =>
    let ev2 := ev1 ++ bev ++ [Event.fetchStep, Event.compatStep]
    let ev3 := ev2 ++ [Event.integrityRemove, Event.linkStep]
    let ev4 := ev3 ++ (if env.flags.ignoreScripts then [Event.scriptsSkipped] else [Event.scriptsStep])
    let ev5 := ev4 ++ (if env.flags.har then [Event.harSave] else [])
    let ev6 := ev5 ++ (if env.shouldClean then [Event.cleanStep] else [])
    let ev7 := ev6 ++ saveLockfileAndIntegrityEvents env req.patterns
    ⟨ev7, none, some fr.flattenedPatterns⟩

/-- Observable outcome of `Install.hydrate`. -/
structure HydrateResult where
  request : CwdRequest
  flattened : List String
  ignoredMarked : List String
  events : List Event
deriving Repr

/-- Embedding of `Install.hydrate(fetch, ignoreUnusedPatterns)` (`install.js`
lines 641-666): collect the cwd request, resolve, flatten, mark ignored
patterns, and when `fetch` is set run the fetcher and compatibility checks and
re-read each resolved manifest from its module path (reads only; the
`updateManifest` calls mutate resolver memory). -/
def hydrateModel (env : InstallEnv) (fetch : Bool) (ignoreUnused : Bool) : HydrateResult :=
  let req := fetchRequestFromCwd (collectEnvOf env) [] ignoreUnused
  let fr := flatten req.flatOut env.rm env.chooser req.resolutions req.patterns
  let marked := markIgnoredModel env.rm req.ignorePatterns
  let fetchEvents := if fetch then [Event.fetchStep, Event.compatStep] else []
  ⟨req, fr.flattenedPatterns, marked, fr.events ++ fetchEvents⟩

/-- The raw commander flags read directly by `run` (`install.js` lines
751-792): the tri-state `lockfile` (tested with `=== false`), the deprecated
`save-*` family and `global`. -/
structure RunRawFlags where
  lockfileSetFalse : Bool
  saveDev : Bool
  savePeer : Bool
  saveOptional : Bool
  saveExact : Bool
  saveTilde : Bool
  globalFlag : Bool
deriving DecidableEq, Repr

/-- Observable outcome of the `run` entry point. -/
structure RunResult where
  events : List Event
  err : Option MessageError
deriving Repr

/-- Embedding of `run(config, reporter, flags, args)` together with
`wrapLifecycle` (`install.js` lines 751-807): load (or create) the lockfile;
with positional args, synthesize the example `add` invocation from the
`save-*` flags and throw `installCommandRenamed`; otherwise run `preinstall`,
construct the `Install` and run its pipeline, and on success run `install`,
`postinstall`, and outside production also `prepublish` and `prepare`. -/
def runModel (env : InstallEnv) (flags : RunRawFlags) (args : List String) : RunResult :=
  let ev0 := if flags.lockfileSetFalse then [Event.lockfileLoadEmpty] else [Event.lockfileLoadFromDir]
  if args.length != 0 then
    let exampleArgs := args
      ++ (if flags.saveDev then ["--dev"] else [])
      ++ (if flags.savePeer then ["--peer"] else [])
      ++ (if flags.saveOptional then ["--optional"] else [])
      ++ (if flags.saveExact then ["--exact"] else [])
      ++ (if flags.saveTilde then ["--tilde"] else [])
    let command := if flags.globalFlag then "global add" else "add"
    ⟨ev0, some (MessageError.lang "installCommandRenamed"
      ["yarn " ++ command ++ " " ++ String.intercalate " " exampleArgs])⟩
  else
    let body := initModel env
    let evs := ev0 ++ [Event.lifecycle "preinstall", Event.installConstructed] ++ body.events
    match body.err with
    | some e => ⟨evs, some e⟩
    | none =>
      let post := [Event.lifecycle "install", Event.lifecycle "postinstall"]
        ++ (if env.production then [] else [Event.lifecycle "prepublish", Event.lifecycle "prepare"])
      ⟨evs ++ post, none⟩

/-- Effective flags with everything off and `lockfile` at its default `true`,
the image of an empty raw flag object under `normalizeFlags`. -/
def flagsD : Flags :=
  { har := false, ignorePlatform := false, ignoreEngines := false, ignoreScripts := false
    ignoreOptional := false, force := false, flat := false, lockfile := true
    pureLockfile := false, skipIntegrityCheck := false, frozenLockfile := false
    linkDuplicates := false, checkFiles := false
    peer := false, dev := false, optional := false, exact := false, tilde := false }

/-- A resolver with nothing resolved. -/
def rmD : ResolverModel :=
  { levelOrderNames := fun _ => []
    infoFor := fun _ => []
    patternsByPackage := fun _ => none
    getResolvedPattern := fun _ => none
    strictResolved := fun _ => ⟨"", false, [], "", 0⟩
    collapseResult := fun n v => n ++ "@" ++ v }

/-- Baseline concrete install environment: a single `npm` registry, an empty
working directory, no lockfile, nothing resolved. -/
def envD : InstallEnv :=
  { flags := flagsD
    production := false
    registries := [⟨"npm", "package.json"⟩]
    readManifest := fun _ => none
    isExotic := fun _ => false
    normalizeName := fun s => s
    getLockedIV := fun _ => false
    getLocked := fun _ => none
    lockfileCache := false
    initialResolutions := []
    rm := rmD
    chooser := fun _ _ => ""
    integrityCheck := fun ps => ⟨false, true, ps⟩
    haveLockfileFile := false
    candidate := []
    pruneMirrorOpt := false
    shouldClean := false }

/-- Root manifest declaring a single runtime dependency `a@1`. -/
def manifestA : ManifestJson :=
  { dependencies := [⟨"a", "1"⟩]
    devDependencies := []
    optionalDependencies := []
    resolutions := []
    flat := false }

/-- Frozen-lockfile environment: a lockfile cache was loaded, the root
manifest requires `a@1`, and the integrity checker reports every checked
pattern as missing from the lockfile. -/
def envC1 : InstallEnv :=
  { envD with
      flags := { flagsD with frozenLockfile := true }
      lockfileCache := true
      readManifest := fun f => if f = "package.json" then some manifestA else none
      integrityCheck := fun ps => ⟨false, false, ps⟩ }

/-- The same frozen-lockfile state with `force` also set. -/
def envC1x : InstallEnv :=
  { envC1 with flags := { flagsD with frozenLockfile := true, force := true } }

/-- Working directory whose root manifest declares no dependencies but has a
truthy `flat` attribute and a non-empty `resolutions` section. -/
def envC2 : InstallEnv :=
  { envD with
      readManifest := fun f =>
        if f = "package.json" then some ⟨[], [], [], [("a", "1.0.0")], true⟩ else none }

/-- Production-mode collection environment whose root manifest declares the
same package `a` at the same range in both `dependencies` and
`devDependencies`. -/
def envC3 : CollectEnv :=
  { registries := [⟨"npm", "package.json"⟩]
    readManifest := fun f =>
      if f = "package.json" then some ⟨[⟨"a", "1"⟩], [⟨"a", "1"⟩], [], [], false⟩ else none
    isExotic := fun _ => false
    normalizeName := fun s => s
    getLockedIV := fun _ => false
    production := true
    flagsIgnoreOptional := false
    flagsFlat := false
    resolutions := [] }

/-- Collection environment with two recognized registries whose manifests
both exist: `npm` is enumerated first, `bower` second. -/
def envC4 : CollectEnv :=
  { envC3 with
      registries := [⟨"npm", "package.json"⟩, ⟨"bower", "bower.json"⟩]
      readManifest := fun f =>
        if f = "package.json" then some manifestA
        else if f = "bower.json" then some ⟨[⟨"b", "2"⟩], [], [], [], false⟩ else none
      production := false }

/-- Persister environment where the lockfile already covers everything: the
single candidate entry agrees with the existing lock entry on `resolved`. -/
def envC5 : InstallEnv :=
  { envD with
      getLocked := fun _ => some ⟨some "https://r/a/-/a-1.0.0.tgz"⟩
      candidate := [("a@1", ⟨some "https://r/a/-/a-1.0.0.tgz"⟩)] }

/-- Persister environment with lockfile writes disabled and `force` set. -/
def envC5x : InstallEnv :=
  { envD with flags := { flagsD with lockfile := false, force := true } }

/-- Config with every forcing option truthy. -/
def cfgW : ConfigModel :=
  { ignoreScriptsOpt := true, ignorePlatformOpt := true, ignoreEnginesOpt := true
    ignoreOptionalOpt := true, forceOpt := true, production := false }

/-- Raw flags with every boolean truthy and `lockfile` absent. -/
def rawW : RawFlags :=
  { har := true, ignorePlatform := true, ignoreEngines := true, ignoreScripts := true
    ignoreOptional := true, force := true, flat := true, lockfile := none
    pureLockfile := true, skipIntegrityCheck := true, frozenLockfile := true
    linkDuplicates := true, checkFiles := true
    peer := true, dev := true, optional := true, exact := true, tilde := true }

/-- Lockfile with one locked entry resolving to an `x-1.tgz` tarball URL with
a hash suffix. -/
def lfW : List (String × LockedEntry) :=
  [("x@1", ⟨some "https://r/x/-/x-1.tgz#abc"⟩)]

/-- Mirror holding the required `x-1.tgz` and a stale `z-old.tgz`. -/
def filesW : List MirrorFile :=
  [⟨"x-1.tgz", "/mirror/x-1.tgz"⟩, ⟨"z-old.tgz", "/mirror/z-old.tgz"⟩]

/-- Raw `run` flags with `--save-dev` set. -/
def runFlagsW : RunRawFlags :=
  { lockfileSetFalse := false, saveDev := true, savePeer := false, saveOptional := false
    saveExact := false, saveTilde := false, globalFlag := false }

/-- The request list of `processRegistry` is the concatenation of the three
category contributions, by definition. -/
theorem processRegistry_requests (env : CollectEnv) (excl : List String) (iu : Bool)
    (r : Registry) (j : ManifestJson) :
    (processRegistry env excl iu r j).requests =
      (pushDeps env excl r.name "dependencies" j.dependencies none false true iu).requests
      ++ (pushDeps env excl r.name "devDependencies" j.devDependencies (some "dev") false
            (!env.production) iu).requests
      ++ (pushDeps env excl r.name "optionalDependencies" j.optionalDependencies
            (some "optional") true (!env.flagsIgnoreOptional) iu).requests :=
  rfl

/-- The pattern list of `processRegistry`, category by category. -/
theorem processRegistry_patterns (env : CollectEnv) (excl : List String) (iu : Bool)
    (r : Registry) (j : ManifestJson) :
    (processRegistry env excl iu r j).patterns =
      (pushDeps env excl r.name "dependencies" j.dependencies none false true iu).patterns
      ++ (pushDeps env excl r.name "devDependencies" j.devDependencies (some "dev") false
            (!env.production) iu).patterns
      ++ (pushDeps env excl r.name "optionalDependencies" j.optionalDependencies
            (some "optional") true (!env.flagsIgnoreOptional) iu).patterns :=
  rfl

/-- The used-pattern list of `processRegistry`, category by category. -/
theorem processRegistry_used (env : CollectEnv) (excl : List String) (iu : Bool)
    (r : Registry) (j : ManifestJson) :
    (processRegistry env excl iu r j).usedPatterns =
      (pushDeps env excl r.name "dependencies" j.dependencies none false true iu).used
      ++ (pushDeps env excl r.name "devDependencies" j.devDependencies (some "dev") false
            (!env.production) iu).used
      ++ (pushDeps env excl r.name "optionalDependencies" j.optionalDependencies
            (some "optional") true (!env.flagsIgnoreOptional) iu).used :=
  rfl

/-- The ignore-pattern list of `processRegistry`, category by category. -/
theorem processRegistry_ignore (env : CollectEnv) (excl : List String) (iu : Bool)
    (r : Registry) (j : ManifestJson) :
    (processRegistry env excl iu r j).ignorePatterns =
      (pushDeps env excl r.name "dependencies" j.dependencies none false true iu).ignore
      ++ (pushDeps env excl r.name "devDependencies" j.devDependencies (some "dev") false
            (!env.production) iu).ignore
      ++ (pushDeps env excl r.name "optionalDependencies" j.optionalDependencies
            (some "optional") true (!env.flagsIgnoreOptional) iu).ignore :=
  rfl

/-- Every request emitted by one `pushDeps` call comes from an entry of its
category, with the pattern built by `mkPattern`. -/
theorem pushDeps_requests_shape (env : CollectEnv) (excl : List String) (rn dt : String)
    (entries : List DepEntry) (hint : Option String) (opt isUsed iu : Bool)
    (req : DepRequest)
    (h : req ∈ (pushDeps env excl rn dt entries hint opt isUsed iu).requests) :
    ∃ e ∈ entries, req = ⟨mkPattern env e.name e.range, rn, hint, opt⟩ := by
  unfold pushDeps at h
  by_cases hg : (iu && !isUsed) = true
  · rw [if_pos hg] at h
    simp at h
  · rw [if_neg hg] at h
    simp only [List.mem_map, List.mem_filter] at h
    obtain ⟨e, ⟨he, _⟩, hreq⟩ := h
    exact ⟨e, he, hreq.symm⟩

/-- A non-excluded entry of a category that is not dropped by
`ignoreUnusedPatterns` is emitted by `pushDeps` with its `mkPattern`
pattern. -/
theorem pushDeps_mem_requests (env : CollectEnv) (excl : List String) (rn dt : String)
    (entries : List DepEntry) (hint : Option String) (opt isUsed iu : Bool) (e : DepEntry)
    (hguard : (iu && !isUsed) = false)
    (he : e ∈ entries) (hexcl : excl.contains e.name = false) :
    (⟨mkPattern env e.name e.range, rn, hint, opt⟩ : DepRequest)
      ∈ (pushDeps env excl rn dt entries hint opt isUsed iu).requests := by
  unfold pushDeps
  rw [hguard]
  simp only [Bool.false_eq_true, if_false, List.mem_map, List.mem_filter]
  exact ⟨e, ⟨he, by simpa using hexcl⟩, rfl⟩

/-- The registry loop skips every leading registry whose manifest file does
not exist and stops at the first one that does: its result is
`processRegistry` on that registry alone. -/
theorem collectLoop_eq_of_found (env : CollectEnv) (excl : List String) (iu : Bool)
    (pre post : List Registry) (r : Registry) (j : ManifestJson)
    (hpre : ∀ p ∈ pre, env.readManifest p.filename = none)
    (hr : env.readManifest r.filename = some j) :
    collectLoop env excl iu (pre ++ r :: post) = processRegistry env excl iu r j := by
  induction pre with
  | nil => simp [collectLoop, hr]
  | cons p ps ih =>
    have hp : env.readManifest p.filename = none := hpre p (List.mem_cons_self p ps)
    simpa [collectLoop, hp] using ih (fun q hq => hpre q (List.mem_cons_of_mem p hq))

/-- One `pushDeps` call distributes its patterns between `used` and `ignore`:
as multisets, `patterns = used + ignore`. -/
theorem pushDeps_partition (env : CollectEnv) (excl : List String) (rn dt : String)
    (entries : List DepEntry) (hint : Option String) (opt isUsed iu : Bool) :
    ((pushDeps env excl rn dt entries hint opt isUsed iu).patterns : Multiset String)
      = ↑(pushDeps env excl rn dt entries hint opt isUsed iu).used
        + ↑(pushDeps env excl rn dt entries hint opt isUsed iu).ignore := by
  unfold pushDeps
  cases isUsed <;> cases iu <;> simp

/-- The used/ignore partition holds for the whole registry loop. -/
theorem collectLoop_partition (env : CollectEnv) (excl : List String) (iu : Bool) :
    ∀ l : List Registry,
      ((collectLoop env excl iu l).patterns : Multiset String)
        = ↑(collectLoop env excl iu l).usedPatterns
          + ↑(collectLoop env excl iu l).ignorePatterns
  | [] => by simp [collectLoop, emptyCwdRequest]
  | r :: rest => by
    cases hr : env.readManifest r.filename with
    | none =>
      simpa [collectLoop, hr] using collectLoop_partition env excl iu rest
    | some j =>
      simp only [collectLoop, hr, processRegistry_patterns, processRegistry_used,
        processRegistry_ignore, ← Multiset.coe_add]
      rw [pushDeps_partition, pushDeps_partition, pushDeps_partition]
      abel

/-- C3 (amended): the three sequences returned by `fetchRequestFromCwd`
satisfy `patterns = usedPatterns + ignorePatterns` as multisets — so their
union is exactly `patterns` — and whenever `patterns` has no duplicate the
two sides are disjoint.  (Disjointness can fail when the same pattern string
is declared in two dependency categories with different used-classification;
see the counterexample.) -/
theorem fetchRequest_partition (env : CollectEnv) (ep : List String) (iu : Bool) :
    ((fetchRequestFromCwd env ep iu).patterns : Multiset String)
      = ↑(fetchRequestFromCwd env ep iu).usedPatterns
        + ↑(fetchRequestFromCwd env ep iu).ignorePatterns ∧
    ((fetchRequestFromCwd env ep iu).patterns.Nodup →
      (fetchRequestFromCwd env ep iu).usedPatterns.Disjoint
        (fetchRequestFromCwd env ep iu).ignorePatterns) := by
  have hmain : ((fetchRequestFromCwd env ep iu).patterns : Multiset String)
      = ↑(fetchRequestFromCwd env ep iu).usedPatterns
        + ↑(fetchRequestFromCwd env ep iu).ignorePatterns :=
    collectLoop_partition env (excludeNamesOf env ep) iu env.registries
  refine ⟨hmain, fun hnd => ?_⟩
  have hnodup : (((fetchRequestFromCwd env ep iu).usedPatterns : Multiset String)
      + ((fetchRequestFromCwd env ep iu).ignorePatterns : Multiset String)).Nodup := by
    rw [← hmain]
    exact Multiset.coe_nodup.mpr hnd
  exact (Multiset.coe_disjoint _ _).mp (Multiset.disjoint_of_nodup_add hnodup)

/-- Witness for C3 at the two-registry environment: the partition equality
holds and, the emitted patterns being distinct, used and ignore patterns are
disjoint. -/
theorem fetchRequest_partition_witness :
    ((fetchRequestFromCwd envC4 [] false).patterns : Multiset String)
      = ↑(fetchRequestFromCwd envC4 [] false).usedPatterns
        + ↑(fetchRequestFromCwd envC4 [] false).ignorePatterns ∧
    (fetchRequestFromCwd envC4 [] false).usedPatterns.Disjoint
      (fetchRequestFromCwd envC4 [] false).ignorePatterns :=
  ⟨(fetchRequest_partition envC4 [] false).1,
   (fetchRequest_partition envC4 [] false).2 (by decide)⟩

/-- Counterexample to C3 as stated: in production mode, a root manifest
declaring `a@1` both as a runtime and as a dev dependency emits the same
pattern into `usedPatterns` and into `ignorePatterns`, so their intersection
is not empty. -/
theorem fetchRequest_partition_counterexample :
    "a@1" ∈ (fetchRequestFromCwd envC3 [] false).usedPatterns ∧
    "a@1" ∈ (fetchRequestFromCwd envC3 [] false).ignorePatterns := by
  decide

/-- C4: when the registries enumerate as `pre ++ r :: post`, no manifest in
`pre` exists and `r`'s manifest exists, `fetchRequestFromCwd` returns exactly
what it returns with `r` as the only registry — the loop stops at `r` and the
registries in `post` contribute nothing — and every emitted request is tagged
with `r`'s registry name. -/
theorem fetchRequest_first_registry_wins (env : CollectEnv) (ep : List String) (iu : Bool)
    (pre post : List Registry) (r : Registry) (j : ManifestJson)
    (hreg : env.registries = pre ++ r :: post)
    (hpre : ∀ p ∈ pre, env.readManifest p.filename = none)
    (hr : env.readManifest r.filename = some j) :
    fetchRequestFromCwd env ep iu = fetchRequestFromCwd { env with registries := [r] } ep iu ∧
    ∀ req ∈ (fetchRequestFromCwd env ep iu).requests, req.registry = r.name := by
  have hmain : fetchRequestFromCwd env ep iu
      = processRegistry env (excludeNamesOf env ep) iu r j := by
    unfold fetchRequestFromCwd
    rw [hreg]
    exact collectLoop_eq_of_found env (excludeNamesOf env ep) iu pre post r j hpre hr
  have hsingle : fetchRequestFromCwd { env with registries := [r] } ep iu
      = processRegistry env (excludeNamesOf env ep) iu r j := by
    have h1 := collectLoop_eq_of_found { env with registries := [r] }
      (excludeNamesOf env ep) iu [] [] r j (fun p hp => absurd hp (List.not_mem_nil p)) hr
    exact h1
  refine ⟨hmain.trans hsingle.symm, fun req hreq => ?_⟩
  rw [hmain, processRegistry_requests] at hreq
  rcases List.mem_append.mp hreq with h2 | h3
  · rcases List.mem_append.mp h2 with h4 | h5
    · obtain ⟨e, _, hm⟩ := pushDeps_requests_shape _ _ _ _ _ _ _ _ _ _ h4
      rw [hm]
    · obtain ⟨e, _, hm⟩ := pushDeps_requests_shape _ _ _ _ _ _ _ _ _ _ h5
      rw [hm]
  · obtain ⟨e, _, hm⟩ := pushDeps_requests_shape _ _ _ _ _ _ _ _ _ _ h3
    rw [hm]

/-- Witness for C4: with `npm` and `bower` manifests both present, the
collection equals the `npm`-only collection. -/
theorem fetchRequest_first_registry_wins_witness :
    fetchRequestFromCwd envC4 [] false
      = fetchRequestFromCwd { envC4 with registries := [⟨"npm", "package.json"⟩] } [] false :=
  (fetchRequest_first_registry_wins envC4 [] false [] [⟨"bower", "bower.json"⟩]
    ⟨"npm", "package.json"⟩ manifestA rfl (fun p hp => absurd hp (List.not_mem_nil p))
    (by decide)).1

/-- C8: every request emitted by `fetchRequestFromCwd` gets its pattern from
a dependency entry of the consulted manifest, as the bare name when
`lockfile.getLocked(name, true)` is truthy and as `name@range` otherwise; and
conversely every non-excluded `dependencies` entry is emitted with exactly
that pattern. -/
theorem fetchRequest_pattern_shape (env : CollectEnv) (ep : List String) (iu : Bool)
    (pre post : List Registry) (r : Registry) (j : ManifestJson)
    (hreg : env.registries = pre ++ r :: post)
    (hpre : ∀ p ∈ pre, env.readManifest p.filename = none)
    (hr : env.readManifest r.filename = some j) :
    (∀ req ∈ (fetchRequestFromCwd env ep iu).requests,
      ∃ e : DepEntry,
        (e ∈ j.dependencies ∨ e ∈ j.devDependencies ∨ e ∈ j.optionalDependencies) ∧
        req.pattern = (if env.getLockedIV e.name then e.name else e.name ++ "@" ++ e.range)) ∧
    (∀ e ∈ j.dependencies, (excludeNamesOf env ep).contains e.name = false →
      (⟨if env.getLockedIV e.name then e.name else e.name ++ "@" ++ e.range,
        r.name, none, false⟩ : DepRequest) ∈ (fetchRequestFromCwd env ep iu).requests) := by
  have hmain : fetchRequestFromCwd env ep iu
      = processRegistry env (excludeNamesOf env ep) iu r j := by
    unfold fetchRequestFromCwd
    rw [hreg]
    exact collectLoop_eq_of_found env (excludeNamesOf env ep) iu pre post r j hpre hr
  constructor
  · intro req hreq
    rw [hmain, processRegistry_requests] at hreq
    rcases List.mem_append.mp hreq with h2 | h3
    · rcases List.mem_append.mp h2 with h4 | h5
      · obtain ⟨e, he, hm⟩ := pushDeps_requests_shape _ _ _ _ _ _ _ _ _ _ h4
        exact ⟨e, Or.inl he, by rw [hm]; rfl⟩
      · obtain ⟨e, he, hm⟩ := pushDeps_requests_shape _ _ _ _ _ _ _ _ _ _ h5
        exact ⟨e, Or.inr (Or.inl he), by rw [hm]; rfl⟩
    · obtain ⟨e, he, hm⟩ := pushDeps_requests_shape _ _ _ _ _ _ _ _ _ _ h3
      exact ⟨e, Or.inr (Or.inr he), by rw [hm]; rfl⟩
  · intro e he hexcl
    rw [hmain, processRegistry_requests]
    refine List.mem_append.mpr (Or.inl (List.mem_append.mpr (Or.inl ?_)))
    exact pushDeps_mem_requests env (excludeNamesOf env ep) r.name "dependencies"
      j.dependencies none false true iu e (by simp) he hexcl

/-- Witness for C8: in the two-registry environment, the single emitted
request carries the pattern `a@1`, built from the unlocked entry `(a, 1)` of
`dependencies`. -/
theorem fetchRequest_pattern_shape_witness :
    (∃ e : DepEntry,
      (e ∈ manifestA.dependencies ∨ e ∈ manifestA.devDependencies
        ∨ e ∈ manifestA.optionalDependencies) ∧
      (DepRequest.mk "a@1" "npm" none false).pattern
        = (if envC4.getLockedIV e.name then e.name else e.name ++ "@" ++ e.range)) ∧
    (DepRequest.mk "a@1" "npm" none false) ∈ (fetchRequestFromCwd envC4 [] false).requests :=
  ⟨(fetchRequest_pattern_shape envC4 [] false [] [⟨"bower", "bower.json"⟩]
      ⟨"npm", "package.json"⟩ manifestA rfl (fun p hp => absurd hp (List.not_mem_nil p))
      (by decide)).1 ⟨"a@1", "npm", none, false⟩ (by decide),
   (fetchRequest_pattern_shape envC4 [] false [] [⟨"bower", "bower.json"⟩]
      ⟨"npm", "package.json"⟩ manifestA rfl (fun p hp => absurd hp (List.not_mem_nil p))
      (by decide)).2 ⟨"a", "1"⟩ (by decide) (by decide)⟩


/-- C6: flag normalization is monotone in the forcing config options.  For
every raw flag record and config, a truthy config option among
ignore-scripts, ignore-platform, ignore-engines, ignore-optional and force
makes the corresponding effective flag true regardless of the raw value, and
a truthy raw flag among those five is never turned off by config. -/
theorem normalizeFlags_forcing_monotone (config : ConfigModel) (raw : RawFlags) :
    (config.ignoreScriptsOpt = true → (normalizeFlags config raw).ignoreScripts = true) ∧
    (config.ignorePlatformOpt = true → (normalizeFlags config raw).ignorePlatform = true) ∧
    (config.ignoreEnginesOpt = true → (normalizeFlags config raw).ignoreEngines = true) ∧
    (config.ignoreOptionalOpt = true → (normalizeFlags config raw).ignoreOptional = true) ∧
    (config.forceOpt = true → (normalizeFlags config raw).force = true) ∧
    (raw.ignoreScripts = true → (normalizeFlags config raw).ignoreScripts = true) ∧
    (raw.ignorePlatform = true → (normalizeFlags config raw).ignorePlatform = true) ∧
    (raw.ignoreEngines = true → (normalizeFlags config raw).ignoreEngines = true) ∧
    (raw.ignoreOptional = true → (normalizeFlags config raw).ignoreOptional = true) ∧
    (raw.force = true → (normalizeFlags config raw).force = true) := by
  obtain ⟨c1, c2, c3, c4, c5, cp⟩ := config
  cases c1 <;> cases c2 <;> cases c3 <;> cases c4 <;> cases c5 <;>
    simp [normalizeFlags]

/-- Witness for C6 at a config with every forcing option truthy and raw flags
all truthy. -/
theorem normalizeFlags_forcing_monotone_witness :
    (normalizeFlags cfgW rawW).ignoreScripts = true ∧
    (normalizeFlags cfgW rawW).ignorePlatform = true ∧
    (normalizeFlags cfgW rawW).ignoreEngines = true ∧
    (normalizeFlags cfgW rawW).ignoreOptional = true ∧
    (normalizeFlags cfgW rawW).force = true :=
  ⟨(normalizeFlags_forcing_monotone cfgW rawW).1 rfl,
   (normalizeFlags_forcing_monotone cfgW rawW).2.1 rfl,
   (normalizeFlags_forcing_monotone cfgW rawW).2.2.1 rfl,
   (normalizeFlags_forcing_monotone cfgW rawW).2.2.2.1 rfl,
   (normalizeFlags_forcing_monotone cfgW rawW).2.2.2.2.1 rfl⟩

/-- C10: when `flags.flat` is false, `flatten` is the identity on its pattern
list, leaves the resolutions untouched and performs no effect at all — in
particular no reporter prompt, no resolver collapse and no root-manifest
save. -/
theorem flatten_not_flat_identity (rm : ResolverModel)
    (chooser : String → List (String × String) → String)
    (resolutions0 : List (String × String)) (patterns : List String) :
    flatten false rm chooser resolutions0 patterns =
      ⟨patterns, resolutions0, []⟩ :=
  rfl

/-- C7: after `pruneOfflineMirror` runs over a configured mirror, every
remaining file's basename is the basename of some locked entry's `resolved`
URL after stripping its `#hash` suffix, and every walked file whose basename
is not required is gone. -/
theorem pruneOfflineMirror_sound (lockfile : List (String × LockedEntry))
    (mirrorFiles : List MirrorFile) :
    (∀ f ∈ pruneOfflineMirror true lockfile mirrorFiles,
        ∃ kv ∈ lockfile, ∃ r, kv.2.resolved = some r ∧
          f.basename = basenameModel (stripHash r)) ∧
    (∀ f ∈ mirrorFiles, f.basename ∉ requiredTarballs lockfile →
        f ∉ pruneOfflineMirror true lockfile mirrorFiles) := by
  constructor
  · intro f hf
    simp only [pruneOfflineMirror, if_pos, List.mem_filter] at hf
    have hreq : f.basename ∈ requiredTarballs lockfile := by
      have := hf.2
      simpa [List.contains_iff_exists_mem_beq, beq_iff_eq] using this
    simp only [requiredTarballs, List.mem_filterMap, Option.map_eq_some'] at hreq
    obtain ⟨kv, hkv, r, hr, hb⟩ := hreq
    exact ⟨kv, hkv, r, hr, hb.symm⟩
  · intro f _hf hnot
    simp only [pruneOfflineMirror, if_pos, List.mem_filter]
    intro hmem
    exact hnot (by simpa [List.contains_iff_exists_mem_beq, beq_iff_eq] using hmem.2)

/-- C2 (code bug): `hydrate` can write to the working directory.  In flat
mode (here inherited from the root manifest's `flat` attribute) with a
non-empty `resolutions` section, the `flatten` call inside `hydrate` reaches
`config.saveRootManifests`, a root-manifest write — contradicting the claim
and the source's own doc comment that `hydrate` "wont write to the cwd". -/
theorem hydrate_writes_root_manifest :
    Event.rootManifestWrite ∈ (hydrateModel envC2 false false).events ∧
    (hydrateModel envC2 false false).request.manifest
      = some ⟨[], [], [], [("a", "1.0.0")], true⟩ := by
  constructor <;> decide

/-- C9: invoked with positional arguments, `run` throws the
`installCommandRenamed` `MessageError` suggesting the equivalent `add` (or
`global add` under `--global`) invocation with the `save-*` flags appended,
and no install pipeline runs: no `Install` is constructed and no lifecycle
script fires. -/
theorem run_positional_args_rejected (env : InstallEnv) (flags : RunRawFlags)
    (args : List String) (h : args ≠ []) :
    (runModel env flags args).err = some (MessageError.lang "installCommandRenamed"
      ["yarn " ++ (if flags.globalFlag then "global add" else "add") ++ " "
        ++ String.intercalate " " (args
          ++ (if flags.saveDev then ["--dev"] else [])
          ++ (if flags.savePeer then ["--peer"] else [])
          ++ (if flags.saveOptional then ["--optional"] else [])
          ++ (if flags.saveExact then ["--exact"] else [])
          ++ (if flags.saveTilde then ["--tilde"] else []))]) ∧
    Event.installConstructed ∉ (runModel env flags args).events ∧
    (∀ phase, Event.lifecycle phase ∉ (runModel env flags args).events) := by
  have hlen : (args.length != 0) = true := by
    simp only [bne_iff_ne, ne_eq]
    intro hlen
    exact h (List.length_eq_zero.mp hlen)
  have hrun : runModel env flags args =
      ⟨if flags.lockfileSetFalse then [Event.lockfileLoadEmpty] else [Event.lockfileLoadFromDir],
       some (MessageError.lang "installCommandRenamed"
        ["yarn " ++ (if flags.globalFlag then "global add" else "add") ++ " "
          ++ String.intercalate " " (args
            ++ (if flags.saveDev then ["--dev"] else [])
            ++ (if flags.savePeer then ["--peer"] else [])
            ++ (if flags.saveOptional then ["--optional"] else [])
            ++ (if flags.saveExact then ["--exact"] else [])
            ++ (if flags.saveTilde then ["--tilde"] else []))])⟩ := by
    simp only [runModel]
    rw [if_pos hlen]
  rw [hrun]
  refine ⟨rfl, ?_, ?_⟩
  · cases hl : flags.lockfileSetFalse <;> simp
  · intro phase
    cases hl : flags.lockfileSetFalse <;> simp

/-- Witness for C9: `install foo --save-dev` fails with a message suggesting
`yarn add foo --dev`, with no install construction and no `preinstall`. -/
theorem run_positional_args_rejected_witness :
    (runModel envD runFlagsW ["foo"]).err = some (MessageError.lang "installCommandRenamed"
      ["yarn add foo --dev"]) ∧
    Event.installConstructed ∉ (runModel envD runFlagsW ["foo"]).events ∧
    Event.lifecycle "preinstall" ∉ (runModel envD runFlagsW ["foo"]).events := by
  have h := run_positional_args_rejected envD runFlagsW ["foo"] (by decide)
  refine ⟨?_, h.2.1, h.2.2 "preinstall"⟩
  rw [h.1]
  decide

/-- Every event appended by one step of the flatten loop over the incoming
state is a reporter prompt or a resolver collapse. -/
theorem flattenStep_events (rm : ResolverModel)
    (chooser : String → List (String × String) → String)
    (st : FlattenState) (name : String) :
    ∀ e ∈ (flattenStep rm chooser st name).events,
      e ∈ st.events ∨ (∃ n, e = Event.prompt n) ∨ (∃ n v, e = Event.collapse n v) := by
  intro e he
  simp only [flattenStep] at he
  by_cases h0 : ((rm.infoFor name).filter (fun i => !i.refIgnore)).length = 0
  · rw [if_pos h0] at he
    exact Or.inl he
  · rw [if_neg h0] at he
    by_cases h1 : ((rm.infoFor name).filter (fun i => !i.refIgnore)).length = 1
    · rw [if_pos h1] at he
      exact Or.inl he
    · rw [if_neg h1] at he
      cases hrv : lookupKey st.resolutions name with
      | none =>
        simp only [hrv] at he
        rcases List.mem_append.mp he with h | h
        · exact Or.inl h
        · rcases List.mem_cons.mp h with h2 | h2
          · exact Or.inr (Or.inl ⟨_, h2⟩)
          · simp only [List.mem_singleton] at h2
            exact Or.inr (Or.inr ⟨_, _, h2⟩)
      | some rv =>
        simp only [hrv] at he
        by_cases hc : (((rm.infoFor name).filter (fun i => !i.refIgnore)).map
            (fun i => i.version)).contains rv = true
        · rw [if_pos hc] at he
          rcases List.mem_append.mp he with h | h
          · exact Or.inl h
          · simp only [List.mem_singleton] at h
            exact Or.inr (Or.inr ⟨_, _, h⟩)
        · rw [if_neg hc] at he
          rcases List.mem_append.mp he with h | h
          · exact Or.inl h
          · rcases List.mem_cons.mp h with h2 | h2
            · exact Or.inr (Or.inl ⟨_, h2⟩)
            · simp only [List.mem_singleton] at h2
              exact Or.inr (Or.inr ⟨_, _, h2⟩)

/-- Events accumulated by the whole flatten loop: anything beyond the initial
events is a prompt or a collapse. -/
theorem flatten_foldl_events (rm : ResolverModel)
    (chooser : String → List (String × String) → String) :
    ∀ (names : List String) (st : FlattenState),
      ∀ e ∈ (names.foldl (flattenStep rm chooser) st).events,
        e ∈ st.events ∨ (∃ n, e = Event.prompt n) ∨ (∃ n v, e = Event.collapse n v)
  | [], _, e, he => Or.inl he
  | name :: rest, st, e, he => by
    rcases flatten_foldl_events rm chooser rest (flattenStep rm chooser st name) e he with
      h | h | h
    · exact flattenStep_events rm chooser st name e h
    · exact Or.inr (Or.inl h)
    · exact Or.inr (Or.inr h)

/-- Every event of `flatten` is a prompt, a collapse, or the root-manifest
save. -/
theorem flatten_events_shape (flagsFlat : Bool) (rm : ResolverModel)
    (chooser : String → List (String × String) → String)
    (resolutions0 : List (String × String)) (patterns : List String) :
    ∀ e ∈ (flatten flagsFlat rm chooser resolutions0 patterns).events,
      (∃ n, e = Event.prompt n) ∨ (∃ n v, e = Event.collapse n v)
        ∨ e = Event.rootManifestWrite := by
  intro e he
  simp only [flatten] at he
  by_cases hf : (!flagsFlat) = true
  · rw [if_pos hf] at he
    simp at he
  · rw [if_neg hf] at he
    by_cases h0 : (List.foldl (flattenStep rm chooser) ⟨[], resolutions0, []⟩
        (rm.levelOrderNames patterns)).resolutions.length = 0
    · rw [if_pos h0] at he
      rcases flatten_foldl_events rm chooser (rm.levelOrderNames patterns)
        ⟨[], resolutions0, []⟩ e he with h | h | h
      · simp at h
      · exact Or.inl h
      · exact Or.inr (Or.inl h)
    · rw [if_neg h0] at he
      rcases List.mem_append.mp he with h | h
      · rcases flatten_foldl_events rm chooser (rm.levelOrderNames patterns)
          ⟨[], resolutions0, []⟩ e h with h1 | h1 | h1
        · simp at h1
        · exact Or.inl h1
        · exact Or.inr (Or.inl h1)
      · simp only [List.mem_singleton] at h
        exact Or.inr (Or.inr h)

/-- C1 (amended): with `frozenLockfile` set, provided `skipIntegrityCheck`
and `force` are unset and a lockfile cache was loaded, an integrity check
reporting a non-empty `missingPatterns` for the used patterns makes the
install fail with the frozen-lockfile `MessageError` before any fetch, link,
or script step runs.  (Under `skipIntegrityCheck`/`force`, or without a
loaded lockfile cache, `bailout` returns before the check and the pipeline
proceeds; see the counterexample.) -/
theorem frozenLockfile_fails_before_fetch (env : InstallEnv)
    (hfrozen : env.flags.frozenLockfile = true)
    (hskip : env.flags.skipIntegrityCheck = false)
    (hforce : env.flags.force = false)
    (hcache : env.lockfileCache = true)
    (hmiss : (env.integrityCheck
      (fetchRequestFromCwd (collectEnvOf env) [] false).usedPatterns).missingPatterns ≠ []) :
    (initModel env).err = some (MessageError.lang "frozenLockfileError" []) ∧
    Event.fetchStep ∉ (initModel env).events ∧
    Event.linkStep ∉ (initModel env).events ∧
    Event.scriptsStep ∉ (initModel env).events := by
  have hc : (env.flags.frozenLockfile && (env.integrityCheck
      (fetchRequestFromCwd (collectEnvOf env) [] false).usedPatterns).missingPatterns.length
        != 0) = true := by
    rw [hfrozen]
    simp only [Bool.true_and, bne_iff_ne, ne_eq]
    intro hlen
    exact hmiss (List.length_eq_zero.mp hlen)
  have hbail : bailoutModel env
      (fetchRequestFromCwd (collectEnvOf env) [] false).usedPatterns
        = .error (MessageError.lang "frozenLockfileError" []) := by
    simp only [bailoutModel]
    rw [hskip, hforce, hcache]
    rw [if_neg (by decide), if_neg (by decide), if_pos hc]
  have hev : (initModel env).events
      = Event.resolveStep :: (flatten (fetchRequestFromCwd (collectEnvOf env) [] false).flatOut
          env.rm env.chooser (fetchRequestFromCwd (collectEnvOf env) [] false).resolutions
          (fetchRequestFromCwd (collectEnvOf env) [] false).patterns).events
      ∧ (initModel env).err = some (MessageError.lang "frozenLockfileError" []) := by
    simp only [initModel]
    rw [hbail]
    exact ⟨rfl, rfl⟩
  refine ⟨hev.2, ?_, ?_, ?_⟩ <;>
    · rw [hev.1]
      intro hmem
      rcases List.mem_cons.mp hmem with h | h
      · cases h
      · rcases flatten_events_shape _ _ _ _ _ _ h with ⟨n, h1⟩ | ⟨n, v, h1⟩ | h1 <;> cases h1

/-- Witness for C1 (amended) at the concrete frozen environment: the install
errors out with the frozen-lockfile message and no fetch, link, or script
event is in the trace. -/
theorem frozenLockfile_fails_before_fetch_witness :
    (initModel envC1).err = some (MessageError.lang "frozenLockfileError" []) ∧
    Event.fetchStep ∉ (initModel envC1).events ∧
    Event.linkStep ∉ (initModel envC1).events ∧
    Event.scriptsStep ∉ (initModel envC1).events :=
  frozenLockfile_fails_before_fetch envC1 rfl rfl rfl rfl (by decide)

/-- Counterexample to C1 as stated: with `frozenLockfile` set but `force`
also set, the integrity check would report the used pattern `a@1` as missing
from the lockfile, yet `bailout` returns before checking: the install does
not fail and the fetch step runs. -/
theorem frozenLockfile_counterexample :
    envC1x.flags.frozenLockfile = true ∧
    (envC1x.integrityCheck
      (fetchRequestFromCwd (collectEnvOf envC1x) [] false).usedPatterns).missingPatterns
        = ["a@1"] ∧
    (initModel envC1x).err = none ∧
    Event.fetchStep ∈ (initModel envC1x).events := by
  refine ⟨rfl, by decide, ?_, ?_⟩ <;> decide

/-- The `lockFileHasAllPatterns` test of the persister, as a quantified
statement: the filter of unlocked patterns is empty exactly when every
pattern has a lock entry. -/
theorem lockFileHasAllPatterns_iff (env : InstallEnv) (patterns : List String) :
    ((patterns.filter (fun p => (env.getLocked p).isNone)).length = 0) ↔
      ∀ p ∈ patterns, (env.getLocked p).isSome := by
  rw [List.length_eq_zero, List.filter_eq_nil_iff]
  constructor
  · intro h p hp
    cases ho : env.getLocked p with
    | none => exact absurd (by simp [ho]) (h p hp)
    | some m => simp [ho]
  · intro h p hp hnone
    cases ho : env.getLocked p with
    | none =>
      have hs := h p hp
      rw [ho] at hs
      simp at hs
    | some m => rw [ho] at hnone; simp at hnone

/-- The `resolverPatternsAreSameAsInLockfile` test of the persister, as a
quantified statement: the disagreement filter is empty exactly when every
candidate entry has a lock entry agreeing on `resolved`. -/
theorem resolverPatternsSame_iff (env : InstallEnv) :
    ((env.candidate.filter (fun kv =>
        match env.getLocked kv.1 with
        | none => true
        | some m => m.resolved ≠ kv.2.resolved)).length = 0) ↔
      ∀ kv ∈ env.candidate, ∃ m, env.getLocked kv.1 = some m ∧ m.resolved = kv.2.resolved := by
  rw [List.length_eq_zero, List.filter_eq_nil_iff]
  constructor
  · intro h kv hkv
    have hk := h kv hkv
    cases ho : env.getLocked kv.1 with
    | none => rw [ho] at hk; simp at hk
    | some m =>
      rw [ho] at hk
      refine ⟨m, rfl, ?_⟩
      by_contra hne
      exact hk (by simp [hne])
  · intro h kv hkv hk
    obtain ⟨m, hm, hres⟩ := h kv hkv
    rw [hm] at hk
    simp [hres] at hk

/-- C5 (amended): provided lockfile writes are enabled (`flags.lockfile` true
and `pureLockfile` unset), `saveLockfileAndIntegrity` skips the lockfile
write exactly when every pattern has a lock entry, every candidate entry
agrees with the existing lockfile on `resolved`, the pattern list is
non-empty, and `force` is unset; in every other such case the candidate is
written.  (When lockfile writes are disabled nothing is written even though
the four conditions may fail; see the counterexample.) -/
theorem saveLockfile_skip_iff (env : InstallEnv) (patterns : List String)
    (hlock : env.flags.lockfile = true) (hpure : env.flags.pureLockfile = false) :
    (Event.lockfileWrite ∉ saveLockfileAndIntegrityEvents env patterns) ↔
      ((∀ p ∈ patterns, (env.getLocked p).isSome) ∧
       (∀ kv ∈ env.candidate, ∃ m, env.getLocked kv.1 = some m ∧ m.resolved = kv.2.resolved) ∧
       patterns ≠ [] ∧ env.flags.force = false) := by
  have hbase : ∀ b : Bool,
      Event.lockfileWrite ∉ (if b then [Event.mirrorPrune] else []) ++ [Event.integrityWrite] := by
    intro b
    cases b <;> decide
  unfold saveLockfileAndIntegrityEvents
  rw [hlock, hpure]
  simp only [decide_eq_true_eq]
  constructor
  · intro hno
    by_cases hc : ((patterns.filter (fun p => (env.getLocked p).isNone)).length = 0)
        ∧ ((env.candidate.filter (fun kv =>
            match env.getLocked kv.1 with
            | none => true
            | some m => m.resolved ≠ kv.2.resolved)).length = 0)
        ∧ patterns.length ≠ 0 ∧ env.flags.force = false
    · obtain ⟨h1, h2, h3, h4⟩ := hc
      refine ⟨(lockFileHasAllPatterns_iff env patterns).mp h1,
        (resolverPatternsSame_iff env).mp h2, ?_, h4⟩
      intro hnil
      exact h3 (by rw [hnil]; rfl)
    · exfalso
      apply hno
      rw [if_neg (by decide), if_neg ?hcond]
      · simp
      case hcond =>
        intro hcond
        apply hc
        simp only [Bool.and_eq_true, decide_eq_true_eq, bne_iff_ne, ne_eq,
          Bool.not_eq_true'] at hcond
        exact ⟨hcond.1.1.1, hcond.1.1.2, hcond.1.2, hcond.2⟩
  · intro ⟨h1, h2, h3, h4⟩
    rw [if_neg (by decide), if_pos ?hcond]
    · exact hbase env.pruneMirrorOpt
    case hcond =>
      simp only [Bool.and_eq_true, decide_eq_true_eq, bne_iff_ne, ne_eq,
        Bool.not_eq_true']
      refine ⟨⟨⟨(lockFileHasAllPatterns_iff env patterns).mpr h1,
        (resolverPatternsSame_iff env).mpr h2⟩, ?_⟩, h4⟩
      intro hlen
      exact h3 (List.length_eq_zero.mp hlen)

/-- Witness for C5: with the lockfile covering the single pattern and the
candidate agreeing on `resolved`, the lockfile is not rewritten. -/
theorem saveLockfile_skip_iff_witness :
    Event.lockfileWrite ∉ saveLockfileAndIntegrityEvents envC5 ["a@1"] :=
  (saveLockfile_skip_iff envC5 ["a@1"] rfl rfl).mpr (by decide)

/-- Counterexample to C5 as stated: with `--no-lockfile` and `force` set and
an unlocked pattern, none of the four skip conditions holds, yet the lockfile
is still not written because of the early return, contradicting the claim
that in every other case the candidate is written. -/
theorem saveLockfile_skip_counterexample :
    Event.lockfileWrite ∉ saveLockfileAndIntegrityEvents envC5x ["a@1"] ∧
    ¬((∀ p ∈ ["a@1"], (envC5x.getLocked p).isSome) ∧
      (∀ kv ∈ envC5x.candidate, ∃ m, envC5x.getLocked kv.1 = some m
        ∧ m.resolved = kv.2.resolved) ∧
      (["a@1"] : List String) ≠ [] ∧ envC5x.flags.force = false) := by
  constructor
  · decide
  · intro ⟨h1, _, _, h4⟩
    have := h1 "a@1" (by decide)
    simp [envC5x, envD] at this

/-- Witness for C7: in a mirror holding `x-1.tgz` and `z-old.tgz` against a
lockfile resolving to `.../x-1.tgz#abc`, the surviving `x-1.tgz` traces back
to the locked `resolved` URL and the stale `z-old.tgz` is deleted. -/
theorem pruneOfflineMirror_sound_witness :
    (∃ kv ∈ lfW, ∃ r, kv.2.resolved = some r ∧
        (MirrorFile.mk "x-1.tgz" "/mirror/x-1.tgz").basename = basenameModel (stripHash r)) ∧
    MirrorFile.mk "z-old.tgz" "/mirror/z-old.tgz" ∉ pruneOfflineMirror true lfW filesW :=
  ⟨(pruneOfflineMirror_sound lfW filesW).1 ⟨"x-1.tgz", "/mirror/x-1.tgz"⟩ (by decide),
   (pruneOfflineMirror_sound lfW filesW).2 ⟨"z-old.tgz", "/mirror/z-old.tgz"⟩ (by decide)
     (by decide)⟩

end Install
